import Mathlib

/-!
Verification of the command/property dispatch core in src/cli.rs
(CliExecutor, PrefixedExecutor).

The external line-matching engine (CliLineMatcher), the terminal output
sink (CharacterTerminalWriter), and the value-parser capability
(ValueInput) are collaborators whose code lives outside src/; their
interfaces are modelled abstractly from the spec (sections 4.3 and 6).
The matcher is an arbitrary state machine over an abstract state type;
the output sink is the list of lines printed so far; a parser is a
function returning a value or a textual error.

The dispatch code itself (run_command, run_property, with_prefix, close,
PrefixedExecutor delegation) is transcribed from src/cli.rs.
-/

/-- Modelled from the spec: the progress result of the matching engine.
The engine returns one of a set of progress states; this core only
distinguishes MatchFound from everything else, so two extra
representative non-match states suffice. -/
inductive LineMatcherProgress where
  | MatchFound
  | NoMatch
  | Processing
deriving DecidableEq

/-- Modelled from the spec: the queryable result state of the matching
engine. On a found match it can yield the captured trailing argument
text (the Match case, mirroring the Rust LineBufferResult.Match with
an args field); any other shape is collapsed into NoMatch because the
core only pattern-matches on the Match case. -/
inductive LineBufferResult where
  | Match (args : String)
  | NoMatch
deriving DecidableEq

/-- Modelled from the spec: the interface of the external matching
engine, as an arbitrary state machine over a state type sg. Operations
are those the core calls: match_cmd_str (which may mutate the engine
state and reports progress), get_state (queries the result state),
starts_with (a predicate over the remaining input), and
add_unmatched_prefix (informs the engine of a rejected branch). -/
structure MatcherImpl (sg : Type) where
  matchCmdStr : String → Option String → sg → LineMatcherProgress × sg
  getState : sg → LineBufferResult
  startsWith : String → sg → Bool
  addUnmatchedPrefix : String → sg → sg

/-- The dispatch style marker of property contexts; cli.rs always uses
DelimitedGetSet. -/
inductive PropertyCommandStyle where
  | DelimitedGetSet
deriving DecidableEq

/-- Command execution context, from cli.rs (CommandContext): the matched
argument text and the current path marker. The terminal reference it
also carries in Rust is the executor terminal itself and is not
duplicated here. -/
structure CommandContext where
  args : String
  current_path : String
deriving DecidableEq

/-- Common fields of property contexts, from cli.rs usage of
PropertyContextCommon: args, current path, property id, style. -/
structure PropertyContextCommon where
  args : String
  current_path : String
  id : String
  style : PropertyCommandStyle
deriving DecidableEq

/-- The Get property context (PropertyContextGet). -/
structure PropertyContextGet where
  common : PropertyContextCommon
deriving DecidableEq

/-- The Set property context (PropertyContextSet): common fields plus
the already-parsed value. -/
structure PropertyContextSet (V : Type) where
  common : PropertyContextCommon
  value : V

/-- The tagged Get/Set property context (PropertyContext). -/
inductive PropertyContext (V : Type) where
  | Get (g : PropertyContextGet)
  | Set (s : PropertyContextSet V)

/-- The common fields of either property context case. -/
def PropertyContext.common {V : Type} : PropertyContext V → PropertyContextCommon
  | PropertyContext.Get g => g.common
  | PropertyContext.Set s => s.common

/-- Model of the Rust standard library function str::trim used by
run_property: removes whitespace characters from both ends of the
string. -/
def rustTrim (s : String) : String :=
  String.mk
    (((s.data.dropWhile Char.isWhitespace).reverse.dropWhile Char.isWhitespace).reverse)

/-- The executor from cli.rs: the matcher handle and the terminal sink.
The sink is modelled as the list of lines printed so far; the engine
implementation record accompanies the engine state. -/
structure CliExecutor (sg : Type) where
  impl : MatcherImpl sg
  matcher : sg
  terminal : List String

/-- close from cli.rs: finish the execution of this line invocation,
returning the matcher. -/
def CliExecutor.close {sg : Type} (e : CliExecutor sg) : sg :=
  e.matcher

/-- The prefixed execution context from cli.rs (PrefixedExecutor). The
Rust field is named prefix; it is named pre here. The mutable borrow of
the parent executor is passed explicitly to its operations. -/
structure PrefixedExecutor where
  pre : String

/-- with_prefix from cli.rs: if the matcher accepts the candidate via
starts_with, produce a prefixed execution context; otherwise inform the
matcher via add_unmatched_prefix and produce nothing. -/
def CliExecutor.withPrefix {sg : Type} (e : CliExecutor sg) (pre : String) :
    Option PrefixedExecutor × CliExecutor sg :=
  if e.impl.startsWith pre e.matcher then
    (some (PrefixedExecutor.mk pre), e)
  else
    (none, CliExecutor.mk e.impl (e.impl.addUnmatchedPrefix pre e.matcher) e.terminal)

/-- run_command from cli.rs: ask the matcher about cmd (hint None); on
MatchFound, read the args out of the result state and return a context
with an empty current_path; otherwise return nothing. -/
def CliExecutor.runCommand {sg : Type} (e : CliExecutor sg) (cmd : String) :
    Option CommandContext × CliExecutor sg :=
  let r := e.impl.matchCmdStr cmd none e.matcher
  let e2 := CliExecutor.mk e.impl r.2 e.terminal
  if r.1 = LineMatcherProgress.MatchFound then
    match e2.impl.getState e2.matcher with
    | LineBufferResult.Match args =>
        (some (CommandContext.mk args ""), e2)
    | LineBufferResult.NoMatch => (none, e2)
  else
    (none, e2)

/-- run_property from cli.rs: first try the candidate id ++ "/get"; on
MatchFound return a Get context carrying the args captured in the
result state (empty when the result state is not a Match). Otherwise
try id ++ "/set"; on MatchFound trim the captured args, run the parser
on them; success yields a Set context with the parsed value, failure
prints one diagnostic line to the terminal and yields nothing. -/
def CliExecutor.runProperty {sg V : Type} (e : CliExecutor sg) (propertyId : String)
    (pr : String → Except String V) :
    Option (PropertyContext V) × CliExecutor sg :=
  let rg := e.impl.matchCmdStr (propertyId ++ "/get") none e.matcher
  let eg := CliExecutor.mk e.impl rg.2 e.terminal
  if rg.1 = LineMatcherProgress.MatchFound then
    let args :=
      match eg.impl.getState eg.matcher with
      | LineBufferResult.Match a => a
      | LineBufferResult.NoMatch => ""
    (some (PropertyContext.Get (PropertyContextGet.mk
      (PropertyContextCommon.mk args "" propertyId
        PropertyCommandStyle.DelimitedGetSet))), eg)
  else
    let rs := eg.impl.matchCmdStr (propertyId ++ "/set") none eg.matcher
    let es := CliExecutor.mk eg.impl rs.2 eg.terminal
    if rs.1 = LineMatcherProgress.MatchFound then
      let args :=
        match es.impl.getState es.matcher with
        | LineBufferResult.Match a => rustTrim a
        | LineBufferResult.NoMatch => ""
      match pr args with
      | Except.ok val =>
          (some (PropertyContext.Set (PropertyContextSet.mk
            (PropertyContextCommon.mk args "" propertyId
              PropertyCommandStyle.DelimitedGetSet) val)), es)
      | Except.error err =>
          (none, CliExecutor.mk es.impl es.matcher
            (es.terminal ++ ["Couldn\x27t parse the value: " ++ err]))
    else
      (none, es)

/-- add_prefix from cli.rs: plain concatenation of the stored string
with the given name. -/
def PrefixedExecutor.addPrefix (p : PrefixedExecutor) (cmd : String) : String :=
  p.pre ++ cmd

/-- PrefixedExecutor.run_command from cli.rs: delegate to the parent
executor under the composed name. -/
def PrefixedExecutor.runCommand {sg : Type} (p : PrefixedExecutor)
    (e : CliExecutor sg) (cmd : String) :
    Option CommandContext × CliExecutor sg :=
  e.runCommand (p.addPrefix cmd)

/-- PrefixedExecutor.run_property from cli.rs: delegate to the parent
executor under the composed id. -/
def PrefixedExecutor.runProperty {sg V : Type} (p : PrefixedExecutor)
    (e : CliExecutor sg) (propertyId : String)
    (pr : String → Except String V) :
    Option (PropertyContext V) × CliExecutor sg :=
  e.runProperty (p.addPrefix propertyId) pr

/-- The args field the /get branch of run_property extracts from a
result state: the captured text on Match, otherwise empty. -/
def LineBufferResult.matchedArgs : LineBufferResult → String
  | LineBufferResult.Match a => a
  | LineBufferResult.NoMatch => ""

/-- A concrete matching engine used to exercise the dispatch code on
real input lines: the state holds the input line, the last result, and
the rejected branch names reported via add_unmatched_prefix. -/
structure TestState where
  line : String
  result : LineBufferResult
  unmatched : List String
deriving DecidableEq

/-- Candidate check of the concrete engine: a candidate matches when it
equals the whole line (no arguments) or is followed in the line by a
space; the captured args are the text after that space. -/
def testMatchCmd (cmd : String) (s : TestState) : LineMatcherProgress × TestState :=
  if s.line = cmd then
    (LineMatcherProgress.MatchFound,
      TestState.mk s.line (LineBufferResult.Match "") s.unmatched)
  else if List.isPrefixOf (cmd.data ++ [' ']) s.line.data then
    (LineMatcherProgress.MatchFound,
      TestState.mk s.line
        (LineBufferResult.Match (String.mk (s.line.data.drop (cmd.data.length + 1))))
        s.unmatched)
  else
    (LineMatcherProgress.NoMatch, s)

/-- The concrete engine packaged as a MatcherImpl. -/
def testImpl : MatcherImpl TestState :=
  MatcherImpl.mk
    (fun cmd _ s => testMatchCmd cmd s)
    (fun s => s.result)
    (fun pre s => List.isPrefixOf pre.data s.line.data)
    (fun pre s => TestState.mk s.line s.result (s.unmatched ++ [pre]))

/-- A fresh concrete engine state over an input line. -/
def testState (line : String) : TestState :=
  TestState.mk line LineBufferResult.NoMatch []

/-- A parser of natural numbers, used as a concrete ValueInput capability. -/
def natParse (s : String) : Except String Nat :=
  if s.data ≠ [] ∧ s.data.all Char.isDigit then
    Except.ok (s.data.foldl (fun n c => 10 * n + (c.toNat - 48)) 0)
  else
    Except.error ("invalid digit in " ++ s)

/-- C1: run_property first tries the derived name id ++ "/get"; when it
reports MatchFound, the result is a Get context carrying the argument
text captured in the engine result state, the engine state is exactly
the one after the single /get attempt (the /set candidate is never
tried), and the right-hand side does not mention the parser, so the
parser is never invoked on a /get match. When /get does not report a
match, the final engine state is the one after trying id ++ "/set" on
the state left by the /get attempt: /set is tried only then. -/
theorem runProperty_get_first {sg V : Type} (impl : MatcherImpl sg) (m : sg)
    (t : List String) (id : String) (pr : String → Except String V) :
    ((impl.matchCmdStr (id ++ "/get") none m).1 = LineMatcherProgress.MatchFound →
      CliExecutor.runProperty (CliExecutor.mk impl m t) id pr =
        (some (PropertyContext.Get (PropertyContextGet.mk
          (PropertyContextCommon.mk
            (LineBufferResult.matchedArgs
              (impl.getState (impl.matchCmdStr (id ++ "/get") none m).2))
            "" id PropertyCommandStyle.DelimitedGetSet))),
         CliExecutor.mk impl (impl.matchCmdStr (id ++ "/get") none m).2 t))
    ∧ ((impl.matchCmdStr (id ++ "/get") none m).1 ≠ LineMatcherProgress.MatchFound →
      (CliExecutor.runProperty (CliExecutor.mk impl m t) id pr).2.matcher =
        (impl.matchCmdStr (id ++ "/set") none
          (impl.matchCmdStr (id ++ "/get") none m).2).2) := by
  constructor
  · intro h
    unfold CliExecutor.runProperty
    rw [if_pos h]
    cases hs : impl.getState (impl.matchCmdStr (id ++ "/get") none m).2 <;>
      simp [LineBufferResult.matchedArgs, hs]
  · intro h
    unfold CliExecutor.runProperty
    rw [if_neg h]
    by_cases h2 : (impl.matchCmdStr (id ++ "/set") none
        (impl.matchCmdStr (id ++ "/get") none m).2).1 = LineMatcherProgress.MatchFound
    · rw [if_pos h2]
      cases hp : pr (match impl.getState (impl.matchCmdStr (id ++ "/set") none
          (impl.matchCmdStr (id ++ "/get") none m).2).2 with
        | LineBufferResult.Match a => rustTrim a
        | LineBufferResult.NoMatch => "") <;> simp [hp]
    · rw [if_neg h2]

/-- C1 witness: on the line "led/get" with the concrete engine, the
/get candidate matches and run_property returns a Get context with
empty captured args, leaving the engine after the single /get check. -/
theorem runProperty_get_first_witness :
    CliExecutor.runProperty (CliExecutor.mk testImpl (testState "led/get") []) "led" natParse =
      (some (PropertyContext.Get (PropertyContextGet.mk
        (PropertyContextCommon.mk "" "" "led" PropertyCommandStyle.DelimitedGetSet))),
       CliExecutor.mk testImpl
         (TestState.mk "led/get" (LineBufferResult.Match "") []) []) := by
  have h := (runProperty_get_first testImpl (testState "led/get") [] "led" natParse).1
    (by decide)
  rw [h]
  rfl

/-- C2: when the /get candidate does not match and the /set candidate
reports MatchFound, run_property trims the captured argument text and
invokes the parser on the trimmed text. Parser success yields a Set
context holding exactly the parsed value (and the trimmed args); parser
failure yields no context and appends exactly one line to the output
sink, formatted as the fixed diagnostic followed by the error text. -/
theorem runProperty_set_parse {sg V : Type} (impl : MatcherImpl sg) (m : sg)
    (t : List String) (id : String) (pr : String → Except String V)
    (hg : (impl.matchCmdStr (id ++ "/get") none m).1 ≠ LineMatcherProgress.MatchFound)
    (hs : (impl.matchCmdStr (id ++ "/set") none
      (impl.matchCmdStr (id ++ "/get") none m).2).1 = LineMatcherProgress.MatchFound) :
    (∀ v, pr (rustTrim (LineBufferResult.matchedArgs (impl.getState
        (impl.matchCmdStr (id ++ "/set") none
          (impl.matchCmdStr (id ++ "/get") none m).2).2))) = Except.ok v →
      CliExecutor.runProperty (CliExecutor.mk impl m t) id pr =
        (some (PropertyContext.Set (PropertyContextSet.mk
          (PropertyContextCommon.mk
            (rustTrim (LineBufferResult.matchedArgs (impl.getState
              (impl.matchCmdStr (id ++ "/set") none
                (impl.matchCmdStr (id ++ "/get") none m).2).2)))
            "" id PropertyCommandStyle.DelimitedGetSet) v)),
         CliExecutor.mk impl
           (impl.matchCmdStr (id ++ "/set") none
             (impl.matchCmdStr (id ++ "/get") none m).2).2 t))
    ∧ (∀ err, pr (rustTrim (LineBufferResult.matchedArgs (impl.getState
        (impl.matchCmdStr (id ++ "/set") none
          (impl.matchCmdStr (id ++ "/get") none m).2).2))) = Except.error err →
      CliExecutor.runProperty (CliExecutor.mk impl m t) id pr =
        (none,
         CliExecutor.mk impl
           (impl.matchCmdStr (id ++ "/set") none
             (impl.matchCmdStr (id ++ "/get") none m).2).2
           (t ++ ["Couldn\x27t parse the value: " ++ err]))) := by
  constructor
  · intro v hv
    unfold CliExecutor.runProperty
    rw [if_neg hg, if_pos hs]
    cases hgs : impl.getState
        (impl.matchCmdStr (id ++ "/set") none
          (impl.matchCmdStr (id ++ "/get") none m).2).2 with
    | Match a =>
        rw [hgs, LineBufferResult.matchedArgs] at hv
        simp [hv, LineBufferResult.matchedArgs]
    | NoMatch =>
        rw [hgs] at hv
        have he : rustTrim (LineBufferResult.matchedArgs LineBufferResult.NoMatch) = "" := rfl
        rw [he] at hv
        simp [hv, he]
  · intro err he
    unfold CliExecutor.runProperty
    rw [if_neg hg, if_pos hs]
    cases hgs : impl.getState
        (impl.matchCmdStr (id ++ "/set") none
          (impl.matchCmdStr (id ++ "/get") none m).2).2 with
    | Match a =>
        rw [hgs, LineBufferResult.matchedArgs] at he
        simp [he, LineBufferResult.matchedArgs]
    | NoMatch =>
        rw [hgs] at he
        have h0 : rustTrim (LineBufferResult.matchedArgs LineBufferResult.NoMatch) = "" := rfl
        rw [h0] at he
        simp [he, h0]

/-- C2 witness: with the concrete engine, on the line "led/set 42" the
parser accepts the trimmed args "42" and a Set context holding 42 is
returned; on the line "led/set abc" the parser fails and the output
sink receives exactly the one diagnostic line. -/
theorem runProperty_set_parse_witness :
    (CliExecutor.runProperty (CliExecutor.mk testImpl (testState "led/set 42") [])
        "led" natParse =
      (some (PropertyContext.Set (PropertyContextSet.mk
        (PropertyContextCommon.mk "42" "" "led" PropertyCommandStyle.DelimitedGetSet) 42)),
       CliExecutor.mk testImpl
         (TestState.mk "led/set 42" (LineBufferResult.Match "42") []) []))
    ∧ (CliExecutor.runProperty (CliExecutor.mk testImpl (testState "led/set abc") [])
        "led" natParse =
      (none,
       CliExecutor.mk testImpl
         (TestState.mk "led/set abc" (LineBufferResult.Match "abc") [])
         ["Couldn\x27t parse the value: invalid digit in abc"])) := by
  constructor
  · have h := (runProperty_set_parse testImpl (testState "led/set 42") [] "led" natParse
      (by decide) (by decide)).1 42 (by rfl)
    rw [h]
    rfl
  · have h := (runProperty_set_parse testImpl (testState "led/set abc") [] "led" natParse
      (by decide) (by decide)).2 "invalid digit in abc" (by rfl)
    rw [h]
    rfl

/-- C3: when the engine reports MatchFound for a command name and its
result state carries matched argument text, run_command returns a
Command context whose args equal exactly that captured text (the text
following the command name, as captured by the engine); when the engine
reports anything other than MatchFound, run_command returns no
context. -/
theorem runCommand_match_spec {sg : Type} (impl : MatcherImpl sg) (m : sg)
    (t : List String) (cmd : String) :
    (∀ a, (impl.matchCmdStr cmd none m).1 = LineMatcherProgress.MatchFound →
      impl.getState (impl.matchCmdStr cmd none m).2 = LineBufferResult.Match a →
      CliExecutor.runCommand (CliExecutor.mk impl m t) cmd =
        (some (CommandContext.mk a ""),
         CliExecutor.mk impl (impl.matchCmdStr cmd none m).2 t))
    ∧ ((impl.matchCmdStr cmd none m).1 ≠ LineMatcherProgress.MatchFound →
      CliExecutor.runCommand (CliExecutor.mk impl m t) cmd =
        (none, CliExecutor.mk impl (impl.matchCmdStr cmd none m).2 t)) := by
  constructor
  · intro a h hgs
    unfold CliExecutor.runCommand
    rw [if_pos h]
    simp [hgs]
  · intro h
    unfold CliExecutor.runCommand
    rw [if_neg h]

/-- C3 witness: on the line "foo bar baz" with the concrete engine,
run_command "foo" yields a context whose args are exactly the text
following the command name, and run_command "qux" yields nothing. -/
theorem runCommand_match_spec_witness :
    (CliExecutor.runCommand (CliExecutor.mk testImpl (testState "foo bar baz") []) "foo" =
      (some (CommandContext.mk "bar baz" ""),
       CliExecutor.mk testImpl
         (TestState.mk "foo bar baz" (LineBufferResult.Match "bar baz") []) []))
    ∧ (CliExecutor.runCommand (CliExecutor.mk testImpl (testState "foo bar baz") []) "qux" =
      (none, CliExecutor.mk testImpl (testState "foo bar baz") [])) := by
  constructor
  · have h := (runCommand_match_spec testImpl (testState "foo bar baz") [] "foo").1
      "bar baz" (by decide) (by decide)
    rw [h]
    rfl
  · have h := (runCommand_match_spec testImpl (testState "foo bar baz") [] "qux").2
      (by decide)
    rw [h]
    rfl

/-- C4: with_prefix returns a scoped prefixed execution context exactly
when the engine starts_with predicate accepts the candidate, and then
the engine state is untouched (add_unmatched_prefix is never applied);
when starts_with rejects it, nothing is returned and the final engine
state is exactly one application of add_unmatched_prefix with that same
candidate string. -/
theorem withPrefix_spec {sg : Type} (impl : MatcherImpl sg) (m : sg)
    (t : List String) (pre : String) :
    (impl.startsWith pre m = true →
      CliExecutor.withPrefix (CliExecutor.mk impl m t) pre =
        (some (PrefixedExecutor.mk pre), CliExecutor.mk impl m t))
    ∧ (impl.startsWith pre m = false →
      CliExecutor.withPrefix (CliExecutor.mk impl m t) pre =
        (none, CliExecutor.mk impl (impl.addUnmatchedPrefix pre m) t)) := by
  constructor
  · intro h
    unfold CliExecutor.withPrefix
    simp [h]
  · intro h
    unfold CliExecutor.withPrefix
    simp [h]

/-- C4 witness: on the line "net/ip/get" with the concrete engine, the
candidate "dev/" is rejected, no scope is produced, and the engine has
recorded exactly one rejected branch, namely "dev/"; on the same line
the candidate "net/" is accepted and the engine state is untouched. -/
theorem withPrefix_spec_witness :
    (CliExecutor.withPrefix (CliExecutor.mk testImpl (testState "net/ip/get") []) "dev/" =
      (none,
       CliExecutor.mk testImpl
         (TestState.mk "net/ip/get" LineBufferResult.NoMatch ["dev/"]) []))
    ∧ (CliExecutor.withPrefix (CliExecutor.mk testImpl (testState "net/ip/get") []) "net/" =
      (some (PrefixedExecutor.mk "net/"),
       CliExecutor.mk testImpl (testState "net/ip/get") [])) := by
  constructor
  · have h := (withPrefix_spec testImpl (testState "net/ip/get") [] "dev/").2 (by decide)
    rw [h]
    rfl
  · exact (withPrefix_spec testImpl (testState "net/ip/get") [] "net/").1 (by decide)

/-- C5: a prefixed execution context with stored string p delegates
run_command and run_property on a name n to the parent executor at the
plainly concatenated name p ++ n, with identical result and identical
final executor state. -/
theorem prefixed_delegation {sg V : Type} (impl : MatcherImpl sg) (m : sg)
    (t : List String) (p n : String) (pr : String → Except String V) :
    PrefixedExecutor.runCommand (PrefixedExecutor.mk p) (CliExecutor.mk impl m t) n =
      CliExecutor.runCommand (CliExecutor.mk impl m t) (p ++ n)
    ∧ PrefixedExecutor.runProperty (PrefixedExecutor.mk p) (CliExecutor.mk impl m t) n pr =
      CliExecutor.runProperty (CliExecutor.mk impl m t) (p ++ n) pr := by
  constructor
  · rfl
  · rfl

/-- C6: evaluating the same unmatched candidate twice in a row returns
no context both times and leaves the executor — engine state and output
sink — exactly as it was, both between and after the two calls; this
holds for run_command on a name the engine does not match and for
run_property on an id for which neither derived suffix matches, given
that the engine check itself reports no match and leaves its state
unchanged on these candidates (the spec asserts the engine keeps its
cursor/state unaffected by a failed candidate check). -/
theorem unmatched_idempotent {sg V : Type} (impl : MatcherImpl sg) (m : sg)
    (t : List String) (cmd id : String) (pr : String → Except String V)
    (hc1 : (impl.matchCmdStr cmd none m).1 ≠ LineMatcherProgress.MatchFound)
    (hc2 : (impl.matchCmdStr cmd none m).2 = m)
    (hg1 : (impl.matchCmdStr (id ++ "/get") none m).1 ≠ LineMatcherProgress.MatchFound)
    (hg2 : (impl.matchCmdStr (id ++ "/get") none m).2 = m)
    (hs1 : (impl.matchCmdStr (id ++ "/set") none m).1 ≠ LineMatcherProgress.MatchFound)
    (hs2 : (impl.matchCmdStr (id ++ "/set") none m).2 = m) :
    CliExecutor.runCommand (CliExecutor.mk impl m t) cmd = (none, CliExecutor.mk impl m t)
    ∧ CliExecutor.runCommand
        (CliExecutor.runCommand (CliExecutor.mk impl m t) cmd).2 cmd =
        (none, CliExecutor.mk impl m t)
    ∧ CliExecutor.runProperty (CliExecutor.mk impl m t) id pr =
        (none, CliExecutor.mk impl m t)
    ∧ CliExecutor.runProperty
        ((CliExecutor.runProperty (CliExecutor.mk impl m t) id pr).2) id pr =
        (none, CliExecutor.mk impl m t) := by
  have hcmd : CliExecutor.runCommand (CliExecutor.mk impl m t) cmd =
      (none, CliExecutor.mk impl m t) := by
    unfold CliExecutor.runCommand
    rw [if_neg hc1, hc2]
  have hprop : CliExecutor.runProperty (CliExecutor.mk impl m t) id pr =
      (none, CliExecutor.mk impl m t) := by
    unfold CliExecutor.runProperty
    rw [if_neg hg1, hg2, if_neg hs1, hs2]
  refine ⟨hcmd, ?_, hprop, ?_⟩
  · rw [hcmd]
    exact hcmd
  · rw [hprop]
    exact hprop

/-- C6 witness: over the line "xyz" with the concrete engine, both
run_command "foo" twice and run_property "bar" twice return nothing and
leave the executor exactly as constructed. -/
theorem unmatched_idempotent_witness :
    CliExecutor.runCommand (CliExecutor.mk testImpl (testState "xyz") []) "foo" =
      (none, CliExecutor.mk testImpl (testState "xyz") [])
    ∧ CliExecutor.runCommand
        (CliExecutor.runCommand (CliExecutor.mk testImpl (testState "xyz") []) "foo").2 "foo" =
        (none, CliExecutor.mk testImpl (testState "xyz") [])
    ∧ CliExecutor.runProperty (CliExecutor.mk testImpl (testState "xyz") []) "bar" natParse =
        (none, CliExecutor.mk testImpl (testState "xyz") [])
    ∧ CliExecutor.runProperty
        ((CliExecutor.runProperty (CliExecutor.mk testImpl (testState "xyz") []) "bar"
          natParse).2) "bar" natParse =
        (none, CliExecutor.mk testImpl (testState "xyz") []) :=
  unmatched_idempotent testImpl (testState "xyz") [] "foo" "bar" natParse
    (by decide) (by decide) (by decide) (by decide) (by decide) (by decide)

/-- C7: close returns exactly the matcher state held by the executor,
performing no matcher operation and no write to the output sink. -/
theorem close_returns_matcher {sg : Type} (impl : MatcherImpl sg) (m : sg)
    (t : List String) :
    CliExecutor.close (CliExecutor.mk impl m t) = m := by
  rfl

/-- C8: every context handed out by run_command or run_property has an
empty current_path, and every property context carries the
DelimitedGetSet style marker. -/
theorem context_fields_invariant {sg V : Type} (impl : MatcherImpl sg) (m : sg)
    (t : List String) (cmd id : String) (pr : String → Except String V) :
    (∀ c, (CliExecutor.runCommand (CliExecutor.mk impl m t) cmd).1 = some c →
      c.current_path = "")
    ∧ (∀ pc : PropertyContext V,
        (CliExecutor.runProperty (CliExecutor.mk impl m t) id pr).1 = some pc →
        (PropertyContext.common pc).current_path = ""
        ∧ (PropertyContext.common pc).style = PropertyCommandStyle.DelimitedGetSet) := by
  constructor
  · intro c hc
    unfold CliExecutor.runCommand at hc
    by_cases h : (impl.matchCmdStr cmd none m).1 = LineMatcherProgress.MatchFound
    · rw [if_pos h] at hc
      cases hgs : impl.getState (impl.matchCmdStr cmd none m).2 <;>
        simp [hgs] at hc
      rw [← hc]
    · rw [if_neg h] at hc
      simp at hc
  · intro pc hpc
    unfold CliExecutor.runProperty at hpc
    by_cases hg : (impl.matchCmdStr (id ++ "/get") none m).1 = LineMatcherProgress.MatchFound
    · rw [if_pos hg] at hpc
      simp at hpc
      rw [← hpc]
      constructor <;> rfl
    · rw [if_neg hg] at hpc
      by_cases hs : (impl.matchCmdStr (id ++ "/set") none
          (impl.matchCmdStr (id ++ "/get") none m).2).1 = LineMatcherProgress.MatchFound
      · rw [if_pos hs] at hpc
        cases hgs : impl.getState (impl.matchCmdStr (id ++ "/set") none
            (impl.matchCmdStr (id ++ "/get") none m).2).2 with
        | Match a =>
            rw [hgs] at hpc
            cases hp : pr (rustTrim a) with
            | ok v =>
                simp [hp] at hpc
                rw [← hpc]
                constructor <;> rfl
            | error err => simp [hp] at hpc
        | NoMatch =>
            rw [hgs] at hpc
            cases hp : pr "" with
            | ok v =>
                simp [hp] at hpc
                rw [← hpc]
                constructor <;> rfl
            | error err => simp [hp] at hpc
      · rw [if_neg hs] at hpc
        simp at hpc

/-- C8 witness: the Get context produced over the line "led/get" and
the Command context produced over "foo bar baz" both carry an empty
current_path, and the property context carries the DelimitedGetSet
style. -/
theorem context_fields_invariant_witness :
    (CommandContext.mk "bar baz" "").current_path = ""
    ∧ (PropertyContext.common ((PropertyContext.Get (PropertyContextGet.mk
        (PropertyContextCommon.mk "" "" "led"
          PropertyCommandStyle.DelimitedGetSet)) : PropertyContext Nat))).current_path = ""
    ∧ (PropertyContext.common ((PropertyContext.Get (PropertyContextGet.mk
        (PropertyContextCommon.mk "" "" "led"
          PropertyCommandStyle.DelimitedGetSet)) : PropertyContext Nat))).style =
        PropertyCommandStyle.DelimitedGetSet := by
  refine ⟨?_, ?_, ?_⟩
  · exact (context_fields_invariant testImpl (testState "foo bar baz") [] "foo" "led"
      natParse).1 (CommandContext.mk "bar baz" "") (by decide)
  · exact ((context_fields_invariant testImpl (testState "led/get") [] "foo" "led"
      natParse).2 _ (by rfl)).1
  · exact ((context_fields_invariant testImpl (testState "led/get") [] "foo" "led"
      natParse).2 _ (by rfl)).2

/-- A degenerate engine that always reports MatchFound yet never
exposes a Match result state; it exercises the disagreeing branch of
run_command and run_property. -/
def weirdImpl : MatcherImpl Unit :=
  MatcherImpl.mk
    (fun _ _ s => (LineMatcherProgress.MatchFound, s))
    (fun _ => LineBufferResult.NoMatch)
    (fun _ _ => false)
    (fun _ s => s)

/-- C9: when the engine reports MatchFound for the /get candidate but
its result state is not a Match, run_property still returns a Get
context whose argument text is empty; run_command in the analogous
situation returns no context at all. -/
theorem matchfound_without_result {sg V : Type} (impl : MatcherImpl sg) (m : sg)
    (t : List String) (cmd id : String) (pr : String → Except String V) :
    ((impl.matchCmdStr (id ++ "/get") none m).1 = LineMatcherProgress.MatchFound →
      impl.getState (impl.matchCmdStr (id ++ "/get") none m).2 = LineBufferResult.NoMatch →
      (CliExecutor.runProperty (CliExecutor.mk impl m t) id pr).1 =
        some (PropertyContext.Get (PropertyContextGet.mk
          (PropertyContextCommon.mk "" "" id PropertyCommandStyle.DelimitedGetSet))))
    ∧ ((impl.matchCmdStr cmd none m).1 = LineMatcherProgress.MatchFound →
      impl.getState (impl.matchCmdStr cmd none m).2 = LineBufferResult.NoMatch →
      (CliExecutor.runCommand (CliExecutor.mk impl m t) cmd).1 = none) := by
  constructor
  · intro h hgs
    unfold CliExecutor.runProperty
    rw [if_pos h, hgs]
  · intro h hgs
    unfold CliExecutor.runCommand
    rw [if_pos h, hgs]

/-- C9 witness: with the degenerate engine, run_property returns a Get
context with empty args while run_command returns nothing. -/
theorem matchfound_without_result_witness :
    (CliExecutor.runProperty (CliExecutor.mk weirdImpl () []) "led" natParse).1 =
      some (PropertyContext.Get (PropertyContextGet.mk
        (PropertyContextCommon.mk "" "" "led" PropertyCommandStyle.DelimitedGetSet)))
    ∧ (CliExecutor.runCommand (CliExecutor.mk weirdImpl () []) "foo").1 = none := by
  constructor
  · exact (matchfound_without_result weirdImpl () [] "foo" "led" natParse).1 rfl rfl
  · exact (matchfound_without_result weirdImpl () [] "foo" "led" natParse).2 rfl rfl

/-- C10: the only write this core itself ever makes to the output sink
is the parse-failure diagnostic in the /set handling of run_property:
run_command and with_prefix leave the sink exactly as it was, every
run_property call that yields a context leaves it as it was, and any
run_property call either leaves the sink unchanged or yields no context
while appending exactly the one diagnostic line. -/
theorem terminal_writes_only_parse_failure {sg V : Type} (impl : MatcherImpl sg)
    (m : sg) (t : List String) (cmd pre id : String)
    (pr : String → Except String V) :
    ((CliExecutor.runCommand (CliExecutor.mk impl m t) cmd).2.terminal = t)
    ∧ ((CliExecutor.withPrefix (CliExecutor.mk impl m t) pre).2.terminal = t)
    ∧ (∀ pc : PropertyContext V,
        (CliExecutor.runProperty (CliExecutor.mk impl m t) id pr).1 = some pc →
        (CliExecutor.runProperty (CliExecutor.mk impl m t) id pr).2.terminal = t)
    ∧ ((CliExecutor.runProperty (CliExecutor.mk impl m t) id pr).2.terminal = t
      ∨ ((CliExecutor.runProperty (CliExecutor.mk impl m t) id pr).1 = none
        ∧ ∃ err, (CliExecutor.runProperty (CliExecutor.mk impl m t) id pr).2.terminal =
            t ++ ["Couldn\x27t parse the value: " ++ err])) := by
  refine ⟨?_, ?_, ?_, ?_⟩
  · unfold CliExecutor.runCommand
    by_cases h : (impl.matchCmdStr cmd none m).1 = LineMatcherProgress.MatchFound
    · rw [if_pos h]
      cases hgs : impl.getState (impl.matchCmdStr cmd none m).2 <;> simp [hgs]
    · rw [if_neg h]
  · unfold CliExecutor.withPrefix
    cases hb : impl.startsWith pre m <;> simp [hb]
  · intro pc hpc
    unfold CliExecutor.runProperty at hpc ⊢
    by_cases hg : (impl.matchCmdStr (id ++ "/get") none m).1 = LineMatcherProgress.MatchFound
    · rw [if_pos hg]
    · rw [if_neg hg] at hpc ⊢
      by_cases hs : (impl.matchCmdStr (id ++ "/set") none
          (impl.matchCmdStr (id ++ "/get") none m).2).1 = LineMatcherProgress.MatchFound
      · rw [if_pos hs] at hpc ⊢
        cases hgs : impl.getState (impl.matchCmdStr (id ++ "/set") none
            (impl.matchCmdStr (id ++ "/get") none m).2).2 with
        | Match a =>
            cases hp : pr (rustTrim a) with
            | ok v => simp [hgs, hp]
            | error err => simp [hgs, hp] at hpc
        | NoMatch =>
            cases hp : pr "" with
            | ok v => simp [hgs, hp]
            | error err => simp [hgs, hp] at hpc
      · rw [if_neg hs]
  · unfold CliExecutor.runProperty
    by_cases hg : (impl.matchCmdStr (id ++ "/get") none m).1 = LineMatcherProgress.MatchFound
    · rw [if_pos hg]
      left
      rfl
    · rw [if_neg hg]
      by_cases hs : (impl.matchCmdStr (id ++ "/set") none
          (impl.matchCmdStr (id ++ "/get") none m).2).1 = LineMatcherProgress.MatchFound
      · rw [if_pos hs]
        cases hgs : impl.getState (impl.matchCmdStr (id ++ "/set") none
            (impl.matchCmdStr (id ++ "/get") none m).2).2 with
        | Match a =>
            cases hp : pr (rustTrim a) with
            | ok v =>
                left
                simp [hgs, hp]
            | error err =>
                right
                refine ⟨by simp [hgs, hp], err, by simp [hgs, hp]⟩
        | NoMatch =>
            cases hp : pr "" with
            | ok v =>
                left
                simp [hgs, hp]
            | error err =>
                right
                refine ⟨by simp [hgs, hp], err, by simp [hgs, hp]⟩
      · rw [if_neg hs]
        left
        rfl

/-- C10 witness: with the concrete engine, run_command over a matching
line, with_prefix over a rejected branch, and a successful
run_property /set all leave the output sink empty. -/
theorem terminal_writes_only_parse_failure_witness :
    (CliExecutor.runCommand (CliExecutor.mk testImpl (testState "foo bar baz") [])
      "foo").2.terminal = []
    ∧ (CliExecutor.withPrefix (CliExecutor.mk testImpl (testState "foo bar baz") [])
      "dev/").2.terminal = []
    ∧ (CliExecutor.runProperty (CliExecutor.mk testImpl (testState "led/set 42") [])
      "led" natParse).2.terminal = [] := by
  refine ⟨?_, ?_, ?_⟩
  · exact (terminal_writes_only_parse_failure testImpl (testState "foo bar baz") []
      "foo" "dev/" "led" natParse).1
  · exact (terminal_writes_only_parse_failure testImpl (testState "foo bar baz") []
      "foo" "dev/" "led" natParse).2.1
  · exact (terminal_writes_only_parse_failure testImpl (testState "led/set 42") []
      "foo" "dev/" "led" natParse).2.2.1
      (PropertyContext.Set (PropertyContextSet.mk
        (PropertyContextCommon.mk "42" "" "led" PropertyCommandStyle.DelimitedGetSet) 42))
      (by rfl)
